import Mathlib

/-!
Shallow embedding of the FCFE DCF stock fair-value calculator
(src/models/fcfe_calculator.py, src/models/dcf_model.py,
src/utils/helpers.py).

Python floats are modelled as rationals (ℚ); optional dictionary
fields as Option ℚ.  A Python float division whose denominator is
zero raises ZeroDivisionError, so any operation that can perform such
a division is modelled as returning Option (none = the exception),
except where the source guards the division itself (safe_divide).
-/

/-- The financial-data mapping consumed by the core.  Only the fields the
core reads are modelled; absence of a key is `none`.  -/
structure FinancialDataRecord where
  current_price : Option ℚ := none
  shares_outstanding : Option ℚ := none
  free_cash_flow : Option ℚ := none
  net_income : Option ℚ := none
  capital_expenditure : Option ℚ := none
  change_in_nwc : Option ℚ := none
  operating_cash_flow : Option ℚ := none
  beta : Option ℚ := none
  historical_growth_rate : Option ℚ := none
  deriving DecidableEq, Repr

/-- src/utils/helpers.py, safe_divide: division with a zero-denominator
guard returning a default.  Total, never fails.  -/
def safe_divide (numerator denominator default : ℚ) : ℚ :=
  if denominator = 0 then default else numerator / denominator

/-- Fallback part of calculate_fcfe (component formula, then the
operating-cash-flow formula), reached when free_cash_flow is absent,
zero, or non-positive.  The Python condition
`if operating_cf and capex` is truthiness of both defaulted values,
i.e. both nonzero.  -/
def calculate_fcfe_components (financial_data : FinancialDataRecord) :
    Option ℚ :=
  let net_income := financial_data.net_income.getD 0
  let capex := financial_data.capital_expenditure.getD 0
  let change_nwc := financial_data.change_in_nwc.getD 0
  let fcfe := net_income + capex - change_nwc
  if 0 < fcfe then some fcfe
  else
    let operating_cf := financial_data.operating_cash_flow.getD 0
    if operating_cf ≠ 0 ∧ capex ≠ 0 then
      let fcfe2 := operating_cf + capex
      if 0 < fcfe2 then some fcfe2 else none
    else none

/-- src/models/fcfe_calculator.py, FCFECalculator.calculate_fcfe.
The Python condition `if fcf and fcf > 0` is truthiness (nonzero) and
positivity, which together reduce to `0 < fcf`.  -/
def calculate_fcfe (financial_data : FinancialDataRecord) : Option ℚ :=
  match financial_data.free_cash_flow with
  | some fcf =>
      if 0 < fcf then some fcf
      else calculate_fcfe_components financial_data
  | none => calculate_fcfe_components financial_data

/-- src/models/fcfe_calculator.py, calculate_cost_of_equity (CAPM).  -/
def calculate_cost_of_equity (risk_free_rate beta market_return : ℚ) : ℚ :=
  risk_free_rate + beta * (market_return - risk_free_rate)

/-- Loop body of project_fcfe: each year multiplies the running value by
(1 + growth_rate) and appends it.  -/
def project_fcfe_loop (fcfe growth_rate : ℚ) : ℕ → List ℚ
  | 0 => []
  | n + 1 =>
      let fcfe2 := fcfe * (1 + growth_rate)
      fcfe2 :: project_fcfe_loop fcfe2 growth_rate n

/-- src/models/fcfe_calculator.py, project_fcfe.  -/
def project_fcfe (current_fcfe growth_rate : ℚ) (years : ℕ) : List ℚ :=
  project_fcfe_loop current_fcfe growth_rate years

/-- src/models/fcfe_calculator.py, calculate_terminal_value (Gordon
Growth).  The Python division raises when the denominator is zero,
modelled as `none`.  -/
def calculate_terminal_value
    (final_fcfe terminal_growth_rate cost_of_equity : ℚ) : Option ℚ :=
  let tg :=
    if cost_of_equity ≤ terminal_growth_rate then cost_of_equity * (1/2)
    else terminal_growth_rate
  if cost_of_equity - tg = 0 then none
  else some ((final_fcfe * (1 + tg)) / (cost_of_equity - tg))

/-- Loop of calculate_present_value: discounts each cash flow at the
running year index; a zero discount factor raises (none).  -/
def pv_loop (cost_of_equity : ℚ) : List ℚ → ℕ → Option ℚ
  | [], _ => some 0
  | fcfe :: rest, year =>
      if (1 + cost_of_equity) ^ year = 0 then none
      else
        match pv_loop cost_of_equity rest (year + 1) with
        | none => none
        | some s => some (fcfe / (1 + cost_of_equity) ^ year + s)

/-- src/models/fcfe_calculator.py, calculate_present_value.  -/
def calculate_present_value
    (future_cash_flows : List ℚ) (terminal_value cost_of_equity : ℚ) :
    Option ℚ :=
  match pv_loop cost_of_equity future_cash_flows 1 with
  | none => none
  | some pv_cash_flows =>
      if (1 + cost_of_equity) ^ future_cash_flows.length = 0 then none
      else
        some (pv_cash_flows +
          terminal_value / (1 + cost_of_equity) ^ future_cash_flows.length)

/-- src/models/fcfe_calculator.py, calculate_per_share_value.  The cash
and debt parameters exist in the source but are unused.  -/
def calculate_per_share_value
    (total_equity_value shares_outstanding : ℚ) (cash debt : ℚ) : ℚ :=
  safe_divide total_equity_value shares_outstanding 0

/-- The details sub-record of a valuation result, populated
incrementally.  -/
structure ValuationDetails where
  current_fcfe : Option ℚ := none
  projected_fcfe : Option (List ℚ) := none
  terminal_value : Option ℚ := none
  total_present_value : Option ℚ := none
  shares_outstanding : Option ℚ := none
  current_price : Option ℚ := none
  upside_percentage : Option ℚ := none
  deriving DecidableEq, Repr

/-- The assumptions sub-record of a valuation result.  -/
structure ValuationAssumptions where
  growth_rate : Option ℚ := none
  cost_of_equity : Option ℚ := none
  beta : Option ℚ := none
  risk_free_rate : Option ℚ := none
  market_return : Option ℚ := none
  terminal_growth_rate : Option ℚ := none
  deriving DecidableEq, Repr

/-- src/models/dcf_model.py result dictionary.  -/
structure ValuationResult where
  fair_value : Option ℚ := none
  details : ValuationDetails := {}
  assumptions : ValuationAssumptions := {}
  error : Option String := none
  deriving DecidableEq, Repr

/-- src/models/dcf_model.py, FCFEDCFModel.calculate_fair_value.
projection_years and terminal_growth_rate are the model-instance
configuration (defaults 5 and 0.025).  The try/except of the source is
modelled by propagating `none` from a fallible step into an
error-populated result carrying the fields set before the failure
(indexing an empty projection list raises IndexError; a zero
denominator raises ZeroDivisionError).  -/
def calculate_fair_value
    (projection_years : ℕ) (terminal_growth_rate : ℚ)
    (financial_data : FinancialDataRecord)
    (risk_free_rate market_return : ℚ)
    (custom_growth_rate : Option ℚ) : ValuationResult :=
  match calculate_fcfe financial_data with
  | none => { error := some "Could not calculate valid FCFE" }
  | some current_fcfe =>
    if current_fcfe ≤ 0 then { error := some "Could not calculate valid FCFE" }
    else
      let growth_rate :=
        match custom_growth_rate with
        | some g => g
        | none =>
            max (min (financial_data.historical_growth_rate.getD 5 / 100)
                  (1/4)) (-(1/20))
      let beta := financial_data.beta.getD 1
      let cost_of_equity :=
        calculate_cost_of_equity risk_free_rate beta market_return
      let projected_fcfe :=
        project_fcfe current_fcfe growth_rate projection_years
      let assumptions : ValuationAssumptions :=
        { growth_rate := some (growth_rate * 100)
          cost_of_equity := some (cost_of_equity * 100)
          beta := some beta
          risk_free_rate := some (risk_free_rate * 100)
          market_return := some (market_return * 100) }
      let details : ValuationDetails :=
        { current_fcfe := some current_fcfe
          projected_fcfe := some projected_fcfe }
      match projected_fcfe.getLast? with
      | none =>
          { details := details, assumptions := assumptions
            error := some "list index out of range" }
      | some final_fcfe =>
        match calculate_terminal_value final_fcfe terminal_growth_rate
            cost_of_equity with
        | none =>
            { details := details, assumptions := assumptions
              error := some "float division by zero" }
        | some terminal_value =>
          let details := { details with terminal_value := some terminal_value }
          let assumptions :=
            { assumptions with
                terminal_growth_rate := some (terminal_growth_rate * 100) }
          match calculate_present_value projected_fcfe terminal_value
              cost_of_equity with
          | none =>
              { details := details, assumptions := assumptions
                error := some "float division by zero" }
          | some total_pv =>
            let details :=
              { details with total_present_value := some total_pv }
            match financial_data.shares_outstanding with
            | none =>
                { details := details, assumptions := assumptions
                  error := some "Invalid shares outstanding" }
            | some shares =>
              if shares ≤ 0 then
                { details := details, assumptions := assumptions
                  error := some "Invalid shares outstanding" }
              else
                let fair_value :=
                  calculate_per_share_value total_pv shares 0 0
                let details :=
                  { details with shares_outstanding := some shares }
                let details :=
                  match financial_data.current_price with
                  | some price =>
                      if price ≠ 0 then
                        { details with
                            current_price := some price
                            upside_percentage :=
                              some ((fair_value - price) / price * 100) }
                      else details
                  | none => details
                { fair_value := some fair_value, details := details
                  assumptions := assumptions }

/-- src/models/dcf_model.py sensitivity-analysis result dictionary.  -/
structure SensitivityResult where
  growth_sensitivity : List (ℚ × Option ℚ) := []
  base_case : Option ValuationResult := none
  deriving DecidableEq, Repr

/-- src/models/dcf_model.py, FCFEDCFModel.sensitivity_analysis, with the
caller-supplied list of growth rates.  The loop is a left fold: one
full calculate_fair_value call per rate, appending the
(rate*100, fair_value) pair, and overwriting base_case whenever the
rate equals exactly 0.05.  -/
def sensitivity_analysis
    (projection_years : ℕ) (terminal_growth_rate : ℚ)
    (financial_data : FinancialDataRecord)
    (risk_free_rate market_return : ℚ)
    (growth_rates : List ℚ) : SensitivityResult :=
  growth_rates.foldl
    (fun acc gr =>
      let valuation := calculate_fair_value projection_years
        terminal_growth_rate financial_data risk_free_rate market_return
        (some gr)
      { growth_sensitivity :=
          acc.growth_sensitivity ++ [(gr * 100, valuation.fair_value)]
        base_case :=
          if gr = 1/20 then some valuation else acc.base_case })
    { growth_sensitivity := [], base_case := none }

/-! ### Helper lemmas about the calculator operations -/

theorem project_fcfe_loop_length (g : ℚ) :
    ∀ (n : ℕ) (c : ℚ), (project_fcfe_loop c g n).length = n := by
  intro n
  induction n with
  | zero => intro c; rfl
  | succ n ih => intro c; simp [project_fcfe_loop, ih]

theorem project_fcfe_loop_getD (g : ℚ) :
    ∀ (n i : ℕ) (c : ℚ), i < n →
      (project_fcfe_loop c g n).getD i 0 = c * (1 + g) ^ (i + 1) := by
  intro n
  induction n with
  | zero => intro i c h; omega
  | succ n ih =>
    intro i c h
    cases i with
    | zero => simp [project_fcfe_loop]
    | succ i =>
      simp only [project_fcfe_loop, List.getD_cons_succ]
      rw [ih i (c * (1 + g)) (by omega)]
      ring

theorem project_fcfe_ne_nil (c g : ℚ) (n : ℕ) (h : 0 < n) :
    project_fcfe c g n ≠ [] := by
  cases n with
  | zero => omega
  | succ n => simp [project_fcfe, project_fcfe_loop]

theorem calculate_terminal_value_ne_none
    (f tg r : ℚ) (h : r ≠ 0) : calculate_terminal_value f tg r ≠ none := by
  by_cases hc : r ≤ tg
  · have hd : r - r * (1/2) ≠ 0 := fun h0 => h (by linarith)
    simp only [calculate_terminal_value, if_pos hc, if_neg hd]
    simp
  · have hlt : tg < r := lt_of_not_le hc
    have hd : r - tg ≠ 0 := sub_ne_zero_of_ne (ne_of_gt hlt)
    simp only [calculate_terminal_value, if_neg hc, if_neg hd]
    simp

theorem pv_loop_eq (r : ℚ) (h : 1 + r ≠ 0) :
    ∀ (cfs : List ℚ) (k : ℕ),
      pv_loop r cfs k =
        some (∑ i ∈ Finset.range cfs.length,
          cfs.getD i 0 / (1 + r) ^ (k + i)) := by
  intro cfs
  induction cfs with
  | nil => intro k; simp [pv_loop]
  | cons f rest ih =>
    intro k
    have hp : (1 + r) ^ k ≠ 0 := pow_ne_zero k h
    simp only [pv_loop, hp, if_false, reduceIte, ih (k + 1)]
    congr 1
    rw [List.length_cons, Finset.sum_range_succ']
    simp only [List.getD_cons_succ, List.getD_cons_zero, Nat.add_zero]
    rw [add_comm]
    congr 1
    apply Finset.sum_congr rfl
    intro i _
    congr 2
    omega

theorem calculate_present_value_eq
    (cfs : List ℚ) (tv r : ℚ) (h : 1 + r ≠ 0) :
    calculate_present_value cfs tv r =
      some ((∑ i ∈ Finset.range cfs.length,
          cfs.getD i 0 / (1 + r) ^ (i + 1)) + tv / (1 + r) ^ cfs.length) := by
  unfold calculate_present_value
  rw [pv_loop_eq r h cfs 1]
  have hp : (1 + r) ^ cfs.length ≠ 0 := pow_ne_zero _ h
  simp only [hp, if_false, reduceIte]
  congr 2
  apply Finset.sum_congr rfl
  intro i _
  congr 2
  omega

theorem calculate_fair_value_success
    (py : ℕ) (hpy : 0 < py) (tgr : ℚ) (fd : FinancialDataRecord)
    (rf mr : ℚ) (cg : Option ℚ) (f : ℚ)
    (hfc : calculate_fcfe fd = some f) (hf : 0 < f)
    (s : ℚ) (hs : fd.shares_outstanding = some s) (hs0 : 0 < s)
    (hr0 : calculate_cost_of_equity rf (fd.beta.getD 1) mr ≠ 0)
    (hr1 : calculate_cost_of_equity rf (fd.beta.getD 1) mr ≠ -1) :
    (calculate_fair_value py tgr fd rf mr cg).error = none ∧
    (calculate_fair_value py tgr fd rf mr cg).fair_value.isSome := by
  have h1r : 1 + calculate_cost_of_equity rf (fd.beta.getD 1) mr ≠ 0 := by
    intro h0
    apply hr1
    linarith
  unfold calculate_fair_value
  rw [hfc]
  dsimp only
  rw [if_neg (not_le.mpr hf)]
  generalize (match cg with
    | some g => g
    | none => max (min (fd.historical_growth_rate.getD 5 / 100) (1/4))
        (-(1/20))) = gr
  have hne : project_fcfe f gr py ≠ [] := project_fcfe_ne_nil f gr py hpy
  have hgl : (project_fcfe f gr py).getLast? ≠ none := by
    intro h0
    exact hne (List.getLast?_eq_none_iff.mp h0)
  obtain ⟨last, hlast⟩ := Option.ne_none_iff_exists'.mp hgl
  rw [hlast]
  dsimp only
  obtain ⟨tv, htv⟩ := Option.ne_none_iff_exists'.mp
    (calculate_terminal_value_ne_none last tgr _ hr0)
  rw [htv]
  dsimp only
  rw [calculate_present_value_eq _ _ _ h1r]
  dsimp only
  rw [hs]
  dsimp only
  rw [if_neg (not_le.mpr hs0)]
  cases fd.current_price <;> simp

theorem calculate_fair_value_growth_fields
    (py : ℕ) (tgr : ℚ) (fd : FinancialDataRecord)
    (rf mr : ℚ) (cg : Option ℚ) (f : ℚ)
    (hfc : calculate_fcfe fd = some f) (hf : 0 < f) :
    (calculate_fair_value py tgr fd rf mr cg).assumptions.growth_rate =
      some ((match cg with
        | some g => g
        | none => max (min (fd.historical_growth_rate.getD 5 / 100) (1/4))
            (-(1/20))) * 100) ∧
    (calculate_fair_value py tgr fd rf mr cg).details.projected_fcfe =
      some (project_fcfe f (match cg with
        | some g => g
        | none => max (min (fd.historical_growth_rate.getD 5 / 100) (1/4))
            (-(1/20))) py) := by
  unfold calculate_fair_value
  rw [hfc]
  dsimp only
  rw [if_neg (not_le.mpr hf)]
  generalize (match cg with
    | some g => g
    | none => max (min (fd.historical_growth_rate.getD 5 / 100) (1/4))
        (-(1/20))) = gr
  refine ⟨?_, ?_⟩ <;> (repeat' split) <;> rfl

theorem sensitivity_foldl
    (py : ℕ) (tgr : ℚ) (fd : FinancialDataRecord) (rf mr : ℚ) :
    ∀ (rates : List ℚ) (acc : SensitivityResult),
      (rates.foldl
        (fun acc gr =>
          let valuation := calculate_fair_value py tgr fd rf mr (some gr)
          { growth_sensitivity :=
              acc.growth_sensitivity ++ [(gr * 100, valuation.fair_value)]
            base_case :=
              if gr = 1/20 then some valuation else acc.base_case })
        acc).growth_sensitivity =
        acc.growth_sensitivity ++ rates.map (fun gr =>
          (gr * 100,
            (calculate_fair_value py tgr fd rf mr (some gr)).fair_value)) ∧
      (rates.foldl
        (fun acc gr =>
          let valuation := calculate_fair_value py tgr fd rf mr (some gr)
          { growth_sensitivity :=
              acc.growth_sensitivity ++ [(gr * 100, valuation.fair_value)]
            base_case :=
              if gr = 1/20 then some valuation else acc.base_case })
        acc).base_case =
        (if (1/20 : ℚ) ∈ rates then
          some (calculate_fair_value py tgr fd rf mr (some (1/20)))
        else acc.base_case) := by
  intro rates
  induction rates with
  | nil => intro acc; simp
  | cons a rest ih =>
    intro acc
    rw [List.foldl_cons]
    constructor
    · rw [(ih _).1]
      simp
    · rw [(ih _).2]
      dsimp only
      by_cases hmem : (1/20 : ℚ) ∈ rest
      · rw [if_pos hmem, if_pos (List.mem_cons_of_mem a hmem)]
      · rw [if_neg hmem]
        by_cases ha : a = 1/20
        · subst ha
          rw [if_pos rfl, if_pos (List.mem_cons_self _ _)]
        · have hnm : (1/20 : ℚ) ∉ a :: rest := by
            intro hmm
            rcases List.mem_cons.mp hmm with h1 | h2
            · exact ha h1.symm
            · exact hmem h2
          rw [if_neg ha, if_neg hnm]

/-! ### Claim theorems -/

/-- C2: for every input record, rate choice and model configuration, a
completed calculate_fair_value call returns exactly one of
{fair_value present, error present}: either an error is set and
fair_value is absent, or fair_value is set and the error is absent.  -/
theorem claim_c2_result_exclusive
    (py : ℕ) (tgr : ℚ) (fd : FinancialDataRecord) (rf mr : ℚ)
    (cg : Option ℚ) :
    ((calculate_fair_value py tgr fd rf mr cg).fair_value = none ∧
      (calculate_fair_value py tgr fd rf mr cg).error.isSome) ∨
    ((calculate_fair_value py tgr fd rf mr cg).fair_value.isSome ∧
      (calculate_fair_value py tgr fd rf mr cg).error = none) := by
  unfold calculate_fair_value
  repeat' split <;> try simp

/-- C5 counterexample: at costOfEquity = 0 (≤ terminalGrowthRate = 0.025)
the guard substitutes 0 * 0.5 = 0 and the division has a zero
denominator, so the call raises instead of returning the substituted
formula value.  -/
theorem claim_c5_counterexample :
    calculate_terminal_value 100 (1/40) 0 ≠
      some (100 * (1 + 0 * (1/2)) / (0 - 0 * (1/2))) ∧
    calculate_terminal_value 100 (1/40) 0 = none := by
  have h : calculate_terminal_value 100 (1/40) 0 = none := by
    norm_num [calculate_terminal_value]
  refine ⟨?_, h⟩
  rw [h]
  simp

/-- C5 (amended): computeTerminalValue returns
finalYearFCFE * (1 + g) / (r - g) when r > g; when r ≤ g it
substitutes g := r * 0.5 before the division and returns
finalYearFCFE * (1 + r * 0.5) / (r - r * 0.5), provided r ≠ 0 — at
r = 0 the substituted denominator is zero and the operation fails
rather than returning a value.  -/
theorem claim_c5_terminal_value
    (final_fcfe g r : ℚ) :
    (g < r →
      calculate_terminal_value final_fcfe g r =
        some (final_fcfe * (1 + g) / (r - g))) ∧
    (r ≤ g → r ≠ 0 →
      calculate_terminal_value final_fcfe g r =
        some (final_fcfe * (1 + r * (1/2)) / (r - r * (1/2)))) := by
  constructor
  · intro hlt
    have hc : ¬(r ≤ g) := not_le.mpr hlt
    have hd : ¬(r - g = 0) := sub_ne_zero_of_ne (ne_of_gt hlt)
    simp only [calculate_terminal_value, if_neg hc, if_neg hd]
  · intro hc hr
    have hd : ¬(r - r * (1/2) = 0) := fun h0 => hr (by linarith)
    simp only [calculate_terminal_value, if_pos hc, if_neg hd]

/-- C5 witness: the nondegenerate branch at the values of the spec
(127.63, g = 0.025, r = 0.10) and the degenerate branch at
r = 0.02 ≤ g = 0.025, where the division is by (0.02 - 0.01).  -/
theorem claim_c5_terminal_value_witness :
    calculate_terminal_value (12763/100) (1/40) (1/10) =
      some ((12763/100) * (1 + 1/40) / (1/10 - 1/40)) ∧
    calculate_terminal_value 100 (1/40) (1/50) =
      some (100 * (1 + (1/50) * (1/2)) / (1/50 - (1/50) * (1/2))) :=
  ⟨(claim_c5_terminal_value (12763/100) (1/40) (1/10)).1 (by norm_num),
   (claim_c5_terminal_value 100 (1/40) (1/50)).2 (by norm_num) (by norm_num)⟩

/-- C6: projectFCFE returns a sequence of length exactly `years` whose
t-th element (t = 1..years) is currentFCFE * (1 + growthRate)^t; in
particular projectFCFE(100, 0.05, 5) is the five-element list
[105, 110.25, 115.7625, 121.550625, 127.62815625], whose first element
is one compounding step beyond the base.  -/
theorem claim_c6_projection
    (current_fcfe growth_rate : ℚ) (years : ℕ) :
    (project_fcfe current_fcfe growth_rate years).length = years ∧
    (∀ t, 1 ≤ t → t ≤ years →
      (project_fcfe current_fcfe growth_rate years).getD (t - 1) 0 =
        current_fcfe * (1 + growth_rate) ^ t) ∧
    project_fcfe 100 (1/20) 5 =
      [105, 441/4, 9261/80, 194481/1600, 4084101/32000] := by
  refine ⟨project_fcfe_loop_length growth_rate years current_fcfe, ?_, ?_⟩
  · intro t h1 h2
    have h3 : t - 1 < years := by omega
    have := project_fcfe_loop_getD growth_rate years (t - 1) current_fcfe h3
    rw [show t - 1 + 1 = t by omega] at this
    exact this
  · norm_num [project_fcfe, project_fcfe_loop]

/-- C6 witness: the theorem instantiated at (100, 0.05, 5) and t = 2.  -/
theorem claim_c6_projection_witness :
    (project_fcfe 100 (1/20) 5).length = 5 ∧
    (project_fcfe 100 (1/20) 5).getD 1 0 = 100 * (1 + 1/20) ^ 2 :=
  ⟨(claim_c6_projection 100 (1/20) 5).1,
   (claim_c6_projection 100 (1/20) 5).2.1 2 (by norm_num) (by norm_num)⟩

/-- C7 counterexample: at costOfEquity = -1 the discount factor
(1 + r)^t is zero, the division raises, and computePresentValue does
not return the claimed sum (it returns no value at all).  -/
theorem claim_c7_counterexample :
    calculate_present_value [1] 1 (-1) ≠
      some ((1 : ℚ) / (1 + (-1)) ^ 1 + 1 / (1 + (-1)) ^ 1) ∧
    calculate_present_value [1] 1 (-1) = none := by
  have h : calculate_present_value [1] 1 (-1) = none := by
    norm_num [calculate_present_value, pv_loop]
  refine ⟨?_, h⟩
  rw [h]
  simp

/-- C7 (amended): for every projected sequence of length N, terminal
value and cost of equity r with r ≠ -1, computePresentValue returns
the sum over t = 1..N of sequence[t] / (1+r)^t plus TV / (1+r)^N (the
terminal value is discounted at horizon N, not N+1); at r = -1 the
discount factor is zero and the operation fails.  -/
theorem claim_c7_present_value
    (future_cash_flows : List ℚ) (terminal_value r : ℚ) (h : r ≠ -1) :
    calculate_present_value future_cash_flows terminal_value r =
      some ((∑ i ∈ Finset.range future_cash_flows.length,
          future_cash_flows.getD i 0 / (1 + r) ^ (i + 1)) +
        terminal_value / (1 + r) ^ future_cash_flows.length) := by
  apply calculate_present_value_eq
  intro h0
  apply h
  linarith

/-- C7 witness: a one-element sequence [100] with terminal value 50 at
r = 10%: 100/1.1 + 50/1.1 = 1500/11.  -/
theorem claim_c7_present_value_witness :
    (1/10 : ℚ) ≠ -1 ∧
    calculate_present_value [100] 50 (1/10) = some (1500/11) := by
  refine ⟨by norm_num, ?_⟩
  have h := claim_c7_present_value [100] 50 (1/10) (by norm_num)
  rw [h]
  norm_num [Finset.sum_range_one]

/-- C9: the per-share operation with zero shares outstanding returns
the configured default 0.0 through the safe_divide guard and never
divides by zero (the operation is total); in particular
computePerShareValue(1000, 0) = 0.  -/
theorem claim_c9_per_share_zero
    (total_equity_value cash debt : ℚ) :
    calculate_per_share_value total_equity_value 0 cash debt = 0 ∧
    calculate_per_share_value 1000 0 cash debt = 0 := by
  constructor <;> simp [calculate_per_share_value, safe_divide]

/-- C1 counterexample: a record with positive FCFE (100) and positive
shares outstanding (10), at risk-free rate 0 and market return 0
(cost of equity 0): the terminal-value guard fires (0 ≤ 0.025),
substitutes terminal growth 0, and the division by zero makes the call
return an error-populated result with no fair value, contradicting the
claim that any rate choice yields error-absent output.  -/
theorem claim_c1_counterexample :
    calculate_fcfe
      { free_cash_flow := some 100, shares_outstanding := some 10 } =
      some 100 ∧
    ((0 : ℚ) < 100) ∧
    (({ free_cash_flow := some 100, shares_outstanding := some 10 } :
        FinancialDataRecord).shares_outstanding = some 10) ∧
    ((0 : ℚ) < 10) ∧
    (calculate_fair_value 5 (1/40)
      { free_cash_flow := some 100, shares_outstanding := some 10 }
      0 0 none).fair_value = none ∧
    (calculate_fair_value 5 (1/40)
      { free_cash_flow := some 100, shares_outstanding := some 10 }
      0 0 none).error = some "float division by zero" := by
  refine ⟨by norm_num [calculate_fcfe], by norm_num, rfl, by norm_num,
    ?_, ?_⟩ <;>
    norm_num [calculate_fair_value, calculate_fcfe,
      calculate_fcfe_components, calculate_cost_of_equity, project_fcfe,
      project_fcfe_loop, calculate_terminal_value, calculate_present_value,
      pv_loop]

/-- C1 (amended): for every record whose computeFCFE value is positive
and whose shares_outstanding is present and positive,
calculateFairValue (default configuration: 5 projection years,
terminal growth 0.025) returns error absent and fair_value present at
any growth-rate choice, provided the CAPM cost of equity
rf + beta*(mr - rf) is neither 0 nor -1 (at 0 the terminal-value
guard divides by zero; at -1 the discounting divides by zero, and the
call returns an error result instead).  -/
theorem claim_c1_fair_value_success
    (fd : FinancialDataRecord) (rf mr : ℚ) (cg : Option ℚ) (f s : ℚ)
    (hfc : calculate_fcfe fd = some f) (hf : 0 < f)
    (hs : fd.shares_outstanding = some s) (hs0 : 0 < s)
    (hr0 : calculate_cost_of_equity rf (fd.beta.getD 1) mr ≠ 0)
    (hr1 : calculate_cost_of_equity rf (fd.beta.getD 1) mr ≠ -1) :
    (calculate_fair_value 5 (1/40) fd rf mr cg).error = none ∧
    (calculate_fair_value 5 (1/40) fd rf mr cg).fair_value.isSome :=
  calculate_fair_value_success 5 (by norm_num) (1/40) fd rf mr cg f hfc hf
    s hs hs0 hr0 hr1

/-- C1 witness: the amended theorem at a concrete record
(FCFE 100, 10 shares) with the default rates 4.5% and 10%
(cost of equity 10%).  -/
theorem claim_c1_fair_value_success_witness :
    calculate_fcfe
      { free_cash_flow := some 100, shares_outstanding := some 10 } =
      some 100 ∧
    (calculate_fair_value 5 (1/40)
      { free_cash_flow := some 100, shares_outstanding := some 10 }
      (9/200) (1/10) none).error = none ∧
    (calculate_fair_value 5 (1/40)
      { free_cash_flow := some 100, shares_outstanding := some 10 }
      (9/200) (1/10) none).fair_value.isSome := by
  have hfc : calculate_fcfe
      { free_cash_flow := some 100, shares_outstanding := some 10 } =
      some 100 := by
    norm_num [calculate_fcfe]
  have h := claim_c1_fair_value_success
    { free_cash_flow := some 100, shares_outstanding := some 10 }
    (9/200) (1/10) none 100 10 hfc (by norm_num) rfl (by norm_num)
    (by norm_num [calculate_cost_of_equity])
    (by norm_num [calculate_cost_of_equity])
  exact ⟨hfc, h.1, h.2⟩

/-- C3 counterexample: a record where both operating_cash_flow (100)
and capital_expenditure (0) are PRESENT and their sum is positive, yet
computeFCFE returns absent: the source checks Python truthiness
(nonzero), not presence, so the present-but-zero capital expenditure
disables the third branch.  -/
theorem claim_c3_counterexample :
    (({ operating_cash_flow := some 100, capital_expenditure := some 0 } :
        FinancialDataRecord).operating_cash_flow = some 100) ∧
    (({ operating_cash_flow := some 100, capital_expenditure := some 0 } :
        FinancialDataRecord).capital_expenditure = some 0) ∧
    ((0 : ℚ) < 100 + 0) ∧
    calculate_fcfe
      { operating_cash_flow := some 100, capital_expenditure := some 0 } =
      none := by
  refine ⟨rfl, rfl, by norm_num, ?_⟩
  norm_num [calculate_fcfe, calculate_fcfe_components]

/-- C3 (amended): computeFCFE follows the stated priority order, except
that the third branch requires the defaulted operating_cash_flow and
capital_expenditure values to be NONZERO (Python truthiness), not
merely present: (a) free_cash_flow present and > 0 is returned
directly; (b) else net_income + capital_expenditure - change_in_nwc
(absent fields defaulting to 0) is returned when > 0; (c) else, when
both defaulted operating_cash_flow and capital_expenditure are nonzero
and their sum is > 0, that sum is returned; (d) else absent.  The two
concrete evaluations of the claim hold.  -/
theorem claim_c3_fcfe_policy (fd : FinancialDataRecord) :
    (∀ fcf, fd.free_cash_flow = some fcf → 0 < fcf →
      calculate_fcfe fd = some fcf) ∧
    ((∀ fcf, fd.free_cash_flow = some fcf → fcf ≤ 0) →
      0 < fd.net_income.getD 0 + fd.capital_expenditure.getD 0 -
          fd.change_in_nwc.getD 0 →
      calculate_fcfe fd =
        some (fd.net_income.getD 0 + fd.capital_expenditure.getD 0 -
          fd.change_in_nwc.getD 0)) ∧
    ((∀ fcf, fd.free_cash_flow = some fcf → fcf ≤ 0) →
      fd.net_income.getD 0 + fd.capital_expenditure.getD 0 -
          fd.change_in_nwc.getD 0 ≤ 0 →
      fd.operating_cash_flow.getD 0 ≠ 0 →
      fd.capital_expenditure.getD 0 ≠ 0 →
      0 < fd.operating_cash_flow.getD 0 + fd.capital_expenditure.getD 0 →
      calculate_fcfe fd =
        some (fd.operating_cash_flow.getD 0 +
          fd.capital_expenditure.getD 0)) ∧
    ((∀ fcf, fd.free_cash_flow = some fcf → fcf ≤ 0) →
      fd.net_income.getD 0 + fd.capital_expenditure.getD 0 -
          fd.change_in_nwc.getD 0 ≤ 0 →
      ¬(fd.operating_cash_flow.getD 0 ≠ 0 ∧
          fd.capital_expenditure.getD 0 ≠ 0 ∧
          0 < fd.operating_cash_flow.getD 0 +
            fd.capital_expenditure.getD 0) →
      calculate_fcfe fd = none) ∧
    calculate_fcfe
      { free_cash_flow := some 500, net_income := some (-1000),
        capital_expenditure := some (-2000), change_in_nwc := some 3000 } =
      some 500 ∧
    calculate_fcfe
      { free_cash_flow := some (-10), net_income := some 200,
        capital_expenditure := some (-50), change_in_nwc := some 20 } =
      some 130 := by
  have hcomp : ∀ (h : ∀ fcf, fd.free_cash_flow = some fcf → fcf ≤ 0),
      calculate_fcfe fd = calculate_fcfe_components fd := by
    intro h
    unfold calculate_fcfe
    cases hq : fd.free_cash_flow with
    | none => rfl
    | some v =>
      have hv := h v hq
      dsimp only
      rw [if_neg (not_lt.mpr hv)]
  refine ⟨?_, ?_, ?_, ?_, ?_, ?_⟩
  · intro fcf hsome hpos
    unfold calculate_fcfe
    rw [hsome]
    dsimp only
    rw [if_pos hpos]
  · intro h hb
    rw [hcomp h]
    simp only [calculate_fcfe_components]
    rw [if_pos hb]
  · intro h hb hocf hcap hsum
    rw [hcomp h]
    simp only [calculate_fcfe_components]
    rw [if_neg (not_lt.mpr hb), if_pos ⟨hocf, hcap⟩, if_pos hsum]
  · intro h hb hc
    rw [hcomp h]
    simp only [calculate_fcfe_components]
    rw [if_neg (not_lt.mpr hb)]
    by_cases h1 : fd.operating_cash_flow.getD 0 ≠ 0 ∧
        fd.capital_expenditure.getD 0 ≠ 0
    · have hsum : ¬(0 < fd.operating_cash_flow.getD 0 +
          fd.capital_expenditure.getD 0) := by
        intro hs
        exact hc ⟨h1.1, h1.2, hs⟩
      rw [if_pos h1, if_neg hsum]
    · rw [if_neg h1]
  · norm_num [calculate_fcfe, calculate_fcfe_components]
  · norm_num [calculate_fcfe, calculate_fcfe_components]

/-- C3 witness: the third (operating-cash-flow) branch fires on a
record with nonzero operating cash flow 300 and nonzero capital
expenditure -100 whose component formula is non-positive, giving
300 + (-100) = 200.  -/
theorem claim_c3_fcfe_policy_witness :
    calculate_fcfe
      { net_income := some (-10), operating_cash_flow := some 300,
        capital_expenditure := some (-100) } = some 200 := by
  have h := (claim_c3_fcfe_policy
    { net_income := some (-10), operating_cash_flow := some 300,
      capital_expenditure := some (-100) }).2.2.1
    (fun fcf h0 => absurd h0 (by simp))
    (by norm_num) (by norm_num) (by norm_num) (by norm_num)
  norm_num at h
  exact h

/-- C4: in calculateFairValue (default configuration), once a valid
FCFE is obtained, the growth rate actually used for the projection and
recorded (times 100) in the assumptions sub-record is the supplied
customGrowthRate unmodified when present, and otherwise
historical_growth_rate / 100 (default 5 when the field is absent)
clamped to [-0.05, 0.25].  -/
theorem claim_c4_growth_resolution
    (fd : FinancialDataRecord) (rf mr : ℚ) (cg : Option ℚ) (f : ℚ)
    (hfc : calculate_fcfe fd = some f) (hf : 0 < f) :
    ∃ gr : ℚ,
      (cg = some gr ∨
        (cg = none ∧
          gr = max (min (fd.historical_growth_rate.getD 5 / 100) (1/4))
            (-(1/20)))) ∧
      (calculate_fair_value 5 (1/40) fd rf mr cg).assumptions.growth_rate =
        some (gr * 100) ∧
      (calculate_fair_value 5 (1/40) fd rf mr cg).details.projected_fcfe =
        some (project_fcfe f gr 5) := by
  have h := calculate_fair_value_growth_fields 5 (1/40) fd rf mr cg f hfc hf
  cases cg with
  | some g => exact ⟨g, Or.inl rfl, h.1, h.2⟩
  | none => exact ⟨_, Or.inr ⟨rfl, rfl⟩, h.1, h.2⟩

/-- C4 witness: an explicit override of 0.50 is recorded as 50
(unclamped), while a historical growth rate of 50 with no override is
divided by 100 and clamped to 0.25, recorded as 25.  -/
theorem claim_c4_growth_resolution_witness :
    (calculate_fair_value 5 (1/40)
      { free_cash_flow := some 100, historical_growth_rate := some 50 }
      (9/200) (1/10) (some (1/2))).assumptions.growth_rate = some 50 ∧
    (calculate_fair_value 5 (1/40)
      { free_cash_flow := some 100, historical_growth_rate := some 50 }
      (9/200) (1/10) none).assumptions.growth_rate = some 25 := by
  constructor
  · obtain ⟨gr, hgr, h1, h2⟩ := claim_c4_growth_resolution
      { free_cash_flow := some 100, historical_growth_rate := some 50 }
      (9/200) (1/10) (some (1/2)) 100 (by norm_num [calculate_fcfe])
      (by norm_num)
    rcases hgr with hgr | ⟨hnone, h0⟩
    · rw [h1]
      injection hgr with hh
      rw [← hh]
      norm_num
    · exact absurd hnone (by simp)
  · obtain ⟨gr, hgr, h1, h2⟩ := claim_c4_growth_resolution
      { free_cash_flow := some 100, historical_growth_rate := some 50 }
      (9/200) (1/10) none 100 (by norm_num [calculate_fcfe])
      (by norm_num)
    rcases hgr with hgr | ⟨h0, hval⟩
    · exact absurd hgr (by simp)
    · rw [h1, hval]
      norm_num [min_def, max_def]

/-- C8: runSensitivity performs one full calculateFairValue call per
supplied growth rate, collecting (rate*100, fair_value) pairs in the
caller-supplied order; base_case is the full ValuationResult of the
scenario whose rate equals exactly 0.05 when one exists and stays
unset otherwise — so [3,5,7]% sets it and [3,4,7]% leaves it none.  -/
theorem claim_c8_sensitivity
    (py : ℕ) (tgr : ℚ) (fd : FinancialDataRecord) (rf mr : ℚ)
    (growth_rates : List ℚ) :
    (sensitivity_analysis py tgr fd rf mr growth_rates).growth_sensitivity
      = growth_rates.map (fun gr =>
        (gr * 100,
          (calculate_fair_value py tgr fd rf mr (some gr)).fair_value)) ∧
    (sensitivity_analysis py tgr fd rf mr growth_rates).base_case =
      (if (1/20 : ℚ) ∈ growth_rates then
        some (calculate_fair_value py tgr fd rf mr (some (1/20)))
      else none) ∧
    (sensitivity_analysis py tgr fd rf mr
        [3/100, 1/20, 7/100]).base_case =
      some (calculate_fair_value py tgr fd rf mr (some (1/20))) ∧
    (sensitivity_analysis py tgr fd rf mr
        [3/100, 1/25, 7/100]).base_case = none := by
  have h := sensitivity_foldl py tgr fd rf mr
  refine ⟨?_, ?_, ?_, ?_⟩
  · unfold sensitivity_analysis
    rw [(h growth_rates _).1]
    simp
  · unfold sensitivity_analysis
    rw [(h growth_rates _).2]
  · unfold sensitivity_analysis
    rw [(h [3/100, 1/20, 7/100] _).2]
    have hm : (1/20 : ℚ) ∈ [3/100, 1/20, 7/100] :=
      List.mem_cons_of_mem _ (List.mem_cons_self _ _)
    rw [if_pos hm]
  · unfold sensitivity_analysis
    rw [(h [3/100, 1/25, 7/100] _).2]
    have hm : (1/20 : ℚ) ∉ [3/100, 1/25, 7/100] := by
      simp only [List.mem_cons, List.not_mem_nil, or_false]
      norm_num
    rw [if_neg hm]

/-- C10: when historical_growth_rate is absent and no custom growth
rate is supplied, calculateFairValue (default configuration) uses the
default 5.0 / 100 = 0.05 growth rate for the projection and records
5.0 in the assumptions sub-record, once a valid FCFE is available.  -/
theorem claim_c10_default_growth
    (fd : FinancialDataRecord) (rf mr : ℚ) (f : ℚ)
    (hfc : calculate_fcfe fd = some f) (hf : 0 < f)
    (hh : fd.historical_growth_rate = none) :
    (calculate_fair_value 5 (1/40) fd rf mr none).assumptions.growth_rate =
      some 5 ∧
    (calculate_fair_value 5 (1/40) fd rf mr none).details.projected_fcfe =
      some (project_fcfe f (1/20) 5) := by
  have h := calculate_fair_value_growth_fields 5 (1/40) fd rf mr none f
    hfc hf
  rw [hh] at h
  norm_num [min_def, max_def] at h
  exact h

/-- C10 witness: the record {free_cash_flow: 100} with no historical
growth rate and no override records 5.0 and projects at 5%.  -/
theorem claim_c10_default_growth_witness :
    calculate_fcfe { free_cash_flow := some 100 } = some 100 ∧
    (calculate_fair_value 5 (1/40) { free_cash_flow := some 100 }
      (9/200) (1/10) none).assumptions.growth_rate = some 5 ∧
    (calculate_fair_value 5 (1/40) { free_cash_flow := some 100 }
      (9/200) (1/10) none).details.projected_fcfe =
      some (project_fcfe 100 (1/20) 5) := by
  have hfc : calculate_fcfe { free_cash_flow := some 100 } = some 100 := by
    norm_num [calculate_fcfe]
  have h := claim_c10_default_growth { free_cash_flow := some 100 }
    (9/200) (1/10) 100 hfc (by norm_num) rfl
  exact ⟨hfc, h.1, h.2⟩
